import Mathlib

/-!
Verification of the pintools memory-event aggregation engine.

Shallow embedding of the analysis routines of three Pin tools:

* `dirty_pages.cpp`     : per-thread instruction counters, the epoch gate and
  the shared dirty-page set;
* `memfootprint_mt.cpp` : the per-thread, per-address footprint table;
* `pinatrace_mt.cpp`    : the thread registry of the raw tracer.

Machine integers are natural numbers (or integers for `INT32`) with explicit
reduction modulo `2^w` wherever the C++ arithmetic can wrap.  Global variables
become fields of an explicit state record that every routine takes and
returns.  Locks protect no state of their own, so the sequential semantics
of a routine is its body with the lock calls erased.  A thread slot is a
`Fin MAX_NUM_THREADS`: the routines index fixed-size arrays with it, and an
index outside the array is undefined behaviour that the model leaves out.
-/

set_option linter.unusedVariables false

/-- Width bound of `UINT64` / `ADDRINT` on the 64-bit target. -/
def U64 : Nat := 2 ^ 64

/-- Width bound of `UINT32`. -/
def U32 : Nat := 2 ^ 32

/-- Unsigned 64-bit addition `a + b`. -/
def add64 (a b : Nat) : Nat := (a + b) % U64

/-- Unsigned 64-bit subtraction `a - b` (wraps below zero). -/
def sub64 (a b : Nat) : Nat := (a + (U64 - b % U64)) % U64

/-- Unsigned 32-bit addition `a + b`. -/
def add32 (a b : Nat) : Nat := (a + b) % U32

/-- Value of an `INT32` after storing the mathematical integer `z`
(two's complement wrap-around). -/
def wrapInt32 (z : Int) : Int := (z + 2 ^ 31) % 2 ^ 32 - 2 ^ 31

/-- Modelled from the spec: the `ASSERT(cond, msg)` macro of `pin.H`, which is
not part of the sources.  The spec calls its failure fatal and
non-recoverable: the run terminates with the message. -/
def ASSERT {σ : Type} (cond : Bool) (msg : String) (s : σ) : Except String σ :=
  if cond then Except.ok s else Except.error msg

namespace DirtyPages

/-- Constant `#define MAX_NUM_THREADS 32` of `dirty_pages.cpp`. -/
abbrev MAX_NUM_THREADS : Nat := 32

/-- Constant `#define PAGE_SIZE 2048` of `dirty_pages.cpp`. -/
def PAGE_SIZE : Nat := 2048

/-- Global variables of `dirty_pages.cpp`.  `out` is the sequence of records
written to the output file by `fprintf(out, "%lu %lu\n", ..)`. -/
structure State where
  insPerSec : Nat
  numThreads : Int
  lastsum : Nat
  icount : Fin MAX_NUM_THREADS → Nat
  pages : Finset Nat
  out : List (Nat × Nat)

/-- State right after `main` has set the threshold: all counters zero,
`lastsum = 0`, no page, nothing written. -/
def initial (threshold : Nat) : State :=
  { insPerSec := threshold, numThreads := 0, lastsum := 0,
    icount := fun _ => 0, pages := ∅, out := [] }

/-- The loop `for (t = 0; t < MAX_NUM_THREADS; t++) sum += icount[t];` on a
`UINT64` accumulator that starts at 0. -/
def sumCounters (icount : Fin MAX_NUM_THREADS → Nat) : Nat :=
  (List.finRange MAX_NUM_THREADS).foldl (fun sum t => add64 sum (icount t)) 0

/-- Routine `ThreadStart`: `numThreads++` on an `INT32` (the lock and the flush
change no modelled state), then `ASSERT(numThreads <= MAX_NUM_THREADS, ..)`. -/
def ThreadStart (s : State) : Except String State :=
  let s1 := { s with numThreads := wrapInt32 (s.numThreads + 1) }
  ASSERT (decide (s1.numThreads ≤ (MAX_NUM_THREADS : Int)))
    "Maximum number of threads exceeded\n" s1

/-- Routine `docount(threadid, c)`: sum the counters, run the unlocked check
`(ins+c) > insPerSec` and inside it the locked check `(sum-lastsum) > insPerSec`
that prints the record, moves `lastsum` and clears `pages`; then
`icount[threadid] += c`. -/
def docount (s : State) (threadid : Fin MAX_NUM_THREADS) (c : Nat) : State :=
  let sum := sumCounters s.icount
  let ins := sub64 sum s.lastsum
  let s1 : State :=
    if add64 ins c > s.insPerSec then
      if sub64 sum s.lastsum > s.insPerSec then
        { s with
          out := s.out ++ [(add64 ins c, s.pages.card)],
          lastsum := sum,
          pages := ∅ }
      else s
    else s
  { s1 with icount := Function.update s1.icount threadid (add64 (s1.icount threadid) c) }

/-- Routine `RecordMemWrite(ip, addr, threadid)`: insert `addr / PAGE_SIZE`
into `pages` when `find` does not return it. -/
def RecordMemWrite (s : State) (ip addr : Nat) (threadid : Fin MAX_NUM_THREADS) : State :=
  let page_addr := addr / PAGE_SIZE
  if page_addr ∈ s.pages then s
  else { s with pages := insert page_addr s.pages }

/-- One analysis call made by the instrumented program. -/
inductive Call where
  | count (threadid : Fin MAX_NUM_THREADS) (c : Nat)
  | write (ip addr : Nat) (threadid : Fin MAX_NUM_THREADS)

/-- Effect of one analysis call. -/
def step (s : State) : Call → State
  | Call.count t c => docount s t c
  | Call.write ip addr t => RecordMemWrite s ip addr t

/-- Sequential execution of a list of analysis calls, first call first. -/
def run (s : State) (calls : List Call) : State := calls.foldl step s

/-- A run of memory writes only: each entry is `(ip, addr, threadid)`. -/
def runWrites (s : State) (ws : List (Nat × Nat × Fin MAX_NUM_THREADS)) : State :=
  ws.foldl (fun st w => RecordMemWrite st w.1 w.2.1 w.2.2) s

/-- A run of `docount` calls only: each entry is `(threadid, c)`. -/
def runCounts (s : State) (cs : List (Fin MAX_NUM_THREADS × Nat)) : State :=
  cs.foldl (fun st x => docount st x.1 x.2) s

/-- Records written to `out` by the call `docount(threadid, c)` in state `s`. -/
def emitted (s : State) (threadid : Fin MAX_NUM_THREADS) (c : Nat) : List (Nat × Nat) :=
  (docount s threadid c).out.drop s.out.length

/-- The call `docount(threadid, c)` fires an epoch boundary: it writes a record. -/
def fires (s : State) (threadid : Fin MAX_NUM_THREADS) (c : Nat) : Prop :=
  emitted s threadid c ≠ []

instance (s : State) (t : Fin MAX_NUM_THREADS) (c : Nat) : Decidable (fires s t c) := by
  unfold fires; infer_instance

/-- Page numbers of the addresses of a sequence of writes, in call order. -/
def pageNumbers (ws : List (Nat × Nat × Fin MAX_NUM_THREADS)) : List Nat :=
  ws.map (fun w => w.2.1 / PAGE_SIZE)

end DirtyPages


namespace DirtyPages

/-- The four writes of the epoch scenario: thread 0 touches the addresses
0, 2047, 2048 and 4096. -/
def scenarioWrites : List Call :=
  [Call.write 0 0 0, Call.write 0 2047 0, Call.write 0 2048 0, Call.write 0 4096 0]

/-- The locked section of `docount` (between `PIN_GetLock(&lock, ..)` and
`PIN_ReleaseLock(&lock)`), run on the shared state `s` with the locals of the
calling context: `sum` and `ins` were computed before the lock was taken and
may be stale, `c` is the block size.  The re-check reads the current
`lastsum`. -/
def docountLocked (s : State) (sum ins c : Nat) : State :=
  if sub64 sum s.lastsum > s.insPerSec then
    { s with
      out := s.out ++ [(add64 ins c, s.pages.card)],
      lastsum := sum,
      pages := ∅ }
  else s

/-- Shared state at the moment a context in slot 1 enters `docount(1, 5)` and
reads the counters: slot 0 has counted 1000 instructions, threshold 1000. -/
def raceStart : State := runCounts (initial 1000) [(0, 1000)]

/-- Shared state when that context gets the lock, after slot 0 has meanwhile
completed `docount(0, 1)` twice (the second call fires and advances `lastsum`)
and written to address 4096. -/
def raceShared : State := run raceStart [Call.count 0 1, Call.count 0 1, Call.write 0 4096 0]

end DirtyPages

namespace MemFootprint

/-- Constant `#define MAX_NUM_THREADS 8`. -/
abbrev MAX_NUM_THREADS : Nat := 8

/-- Record `struct ADDRSTAT`: four `UINT32` fields and two `BOOL` flags. -/
structure ADDRSTAT where
  accesses : Nat
  all_bytes_read : Nat
  smallest_byte_read : Nat
  largest_byte_read : Nat
  is_read : Bool
  is_write : Bool
  deriving DecidableEq, Repr

/-- A `map <ADDRINT, ADDRSTAT>`: `none` is the answer of `find` for a key that
is not in the map. -/
abbrev Table : Type := Nat → Option ADDRSTAT

/-- Global variables of `memfootprint_mt.cpp`. -/
structure State where
  numThreads : Int
  addrs : Fin MAX_NUM_THREADS → Table
  thread_all_bytes_read : Fin MAX_NUM_THREADS → Nat

/-- State at program start: empty maps, zero byte totals. -/
def initial : State :=
  { numThreads := 0, addrs := fun _ _ => none, thread_all_bytes_read := fun _ => 0 }

/-- The `else` branch of `CountBytes`: update of an entry that `find` returned. -/
def bump (e : ADDRSTAT) (size : Nat) (l s : Bool) : ADDRSTAT :=
  let e1 := { e with accesses := add32 e.accesses 1 }
  let e2 := { e1 with all_bytes_read := add32 e1.all_bytes_read size }
  let e3 := if !e2.is_read then { e2 with is_read := l } else e2
  let e4 := if !e3.is_write then { e3 with is_write := s } else e3
  let e5 := if e4.smallest_byte_read > size then { e4 with smallest_byte_read := size } else e4
  if e5.largest_byte_read < size then { e5 with largest_byte_read := size } else e5

/-- Routine `CountBytes(addr, size, t, l, s)`: add `size` to the byte total of
slot `t`, then create the entry of `addr` in `addrs[t]` or update it. -/
def CountBytes (st : State) (addr size : Nat) (t : Fin MAX_NUM_THREADS) (l s : Bool) : State :=
  let st1 := { st with
    thread_all_bytes_read :=
      Function.update st.thread_all_bytes_read t (add64 (st.thread_all_bytes_read t) size) }
  match st1.addrs t addr with
  | none =>
    let new_stat : ADDRSTAT := ⟨1, size, size, size, l, s⟩
    { st1 with addrs := Function.update st1.addrs t (Function.update (st1.addrs t) addr (some new_stat)) }
  | some e =>
    { st1 with addrs := Function.update st1.addrs t (Function.update (st1.addrs t) addr (some (bump e size l s))) }

/-- Routine `RecordMemRead(ip, addr, size, threadid)`. -/
def RecordMemRead (st : State) (ip addr size : Nat) (threadid : Fin MAX_NUM_THREADS) : State :=
  CountBytes st addr size threadid true false

/-- Routine `RecordMemWrite(ip, addr, size, threadid)`. -/
def RecordMemWrite (st : State) (ip addr size : Nat) (threadid : Fin MAX_NUM_THREADS) : State :=
  CountBytes st addr size threadid false true

/-- Routine `ThreadStart`: `numThreads++` on an `INT32` (the lock and the flush
change no modelled state), then `ASSERT(numThreads <= MAX_NUM_THREADS, ..)`. -/
def ThreadStart (s : State) : Except String State :=
  let s1 := { s with numThreads := wrapInt32 (s.numThreads + 1) }
  ASSERT (decide (s1.numThreads ≤ (MAX_NUM_THREADS : Int)))
    "Maximum number of threads exceeded\n" s1

/-- One memory-operand callback: a read or a write of `size` bytes at `addr`
by the thread in slot `threadid`. -/
structure Access where
  isRead : Bool
  ip : Nat
  addr : Nat
  size : Nat
  threadid : Fin MAX_NUM_THREADS
  deriving DecidableEq, Repr

/-- Effect of one callback: reads go to `RecordMemRead`, writes to
`RecordMemWrite`. -/
def step (st : State) (a : Access) : State :=
  if a.isRead then RecordMemRead st a.ip a.addr a.size a.threadid
  else RecordMemWrite st a.ip a.addr a.size a.threadid

/-- Sequential execution of a list of callbacks, first call first. -/
def run (st : State) (calls : List Access) : State := calls.foldl step st

/-- The calls of a history made by slot `t` on address `a`, in call order. -/
def historyOf (t : Fin MAX_NUM_THREADS) (a : Nat) (calls : List Access) : List Access :=
  calls.filter (fun c => decide (c.threadid = t ∧ c.addr = a))

/-- Arguments `(addr, size, l, s)` of one direct `CountBytes` call. -/
abbrev CountArgs : Type := Nat × Nat × Bool × Bool

/-- A sequence of `CountBytes` calls that all carry the thread slot `t`. -/
def runCountBytes (st : State) (t : Fin MAX_NUM_THREADS) (calls : List CountArgs) : State :=
  calls.foldl (fun acc c => CountBytes acc c.1 c.2.1 t c.2.2.1 c.2.2.2) st

end MemFootprint

namespace Pinatrace

/-- Constant `#define MAX_NUM_THREADS 8`. -/
abbrev MAX_NUM_THREADS : Nat := 8

/-- The only global of `pinatrace_mt.cpp` that the thread registry uses. -/
structure State where
  numThreads : Int

/-- State at program start. -/
def initial : State := { numThreads := 0 }

/-- Routine `ThreadStart`: `numThreads++` on an `INT32` (the lock and the flush
change no modelled state), then `ASSERT(numThreads <= MAX_NUM_THREADS, ..)`. -/
def ThreadStart (s : State) : Except String State :=
  let s1 := { s with numThreads := wrapInt32 (s.numThreads + 1) }
  ASSERT (decide (s1.numThreads ≤ (MAX_NUM_THREADS : Int)))
    "Maximum number of threads exceeded\n" s1

end Pinatrace

/-- Outcome of `k` successive calls of a fallible routine: the first failure
ends the run. -/
def iterateExcept {σ : Type} (f : σ → Except String σ) : Nat → σ → Except String σ
  | 0, s => Except.ok s
  | k + 1, s =>
    match iterateExcept f k s with
    | Except.ok s1 => f s1
    | Except.error e => Except.error e

namespace MemFootprint

/-- What the spec says the statistics of a call history are: the number of
calls as a 32-bit value, the least and the greatest size, and the two
"seen" flags. -/
def FoldOfHistory (hist : List Access) (e : ADDRSTAT) : Prop :=
  e.accesses = hist.length % U32 ∧
  (∃ c ∈ hist, e.smallest_byte_read = c.size) ∧
  (∀ c ∈ hist, e.smallest_byte_read ≤ c.size) ∧
  (∃ c ∈ hist, e.largest_byte_read = c.size) ∧
  (∀ c ∈ hist, c.size ≤ e.largest_byte_read) ∧
  (e.is_read = true ↔ ∃ c ∈ hist, c.isRead = true) ∧
  (e.is_write = true ↔ ∃ c ∈ hist, c.isRead = false)

instance (hist : List Access) (e : ADDRSTAT) : Decidable (FoldOfHistory hist e) := by
  unfold FoldOfHistory; infer_instance

/-- A read of `size` bytes at `addr` by slot `t` (the instruction pointer is
not used by the analysis). -/
def readOf (addr size : Nat) (t : Fin MAX_NUM_THREADS) : Access :=
  { isRead := true, ip := 0, addr := addr, size := size, threadid := t }

/-- A write of `size` bytes at `addr` by slot `t`. -/
def writeOf (addr size : Nat) (t : Fin MAX_NUM_THREADS) : Access :=
  { isRead := false, ip := 0, addr := addr, size := size, threadid := t }

end MemFootprint

namespace DirtyPages

/-! Section: Dirty-page set. -/

theorem RecordMemWrite_pages (s : State) (ip addr : Nat) (t : Fin MAX_NUM_THREADS) :
    (RecordMemWrite s ip addr t).pages = insert (addr / PAGE_SIZE) s.pages := by
  unfold RecordMemWrite
  by_cases hmem : addr / PAGE_SIZE ∈ s.pages
  · simp [hmem]
  · simp [hmem]

theorem runWrites_pages (ws : List (Nat × Nat × Fin MAX_NUM_THREADS)) :
    ∀ s : State, (runWrites s ws).pages = s.pages ∪ (pageNumbers ws).toFinset := by
  induction ws with
  | nil => intro s; simp [runWrites, pageNumbers]
  | cons w rest ih =>
    intro s
    have hstep : runWrites s (w :: rest) = runWrites (RecordMemWrite s w.1 w.2.1 w.2.2) rest := rfl
    rw [hstep, ih, RecordMemWrite_pages]
    ext p
    simp [pageNumbers]

/-- C1. Dedup invariant of the dirty-page set: starting from an empty set, after
any finite sequence of `RecordMemWrite` calls the cardinality of `pages` is the
number of distinct values `addr / PAGE_SIZE` among the addresses written, and a
page number is in the set iff some address of the sequence maps to it. -/
theorem recordMemWrite_dedup (s : State) (ws : List (Nat × Nat × Fin MAX_NUM_THREADS))
    (hempty : s.pages = ∅) :
    (runWrites s ws).pages.card = (pageNumbers ws).dedup.length ∧
    ∀ p : Nat, p ∈ (runWrites s ws).pages ↔ ∃ w ∈ ws, w.2.1 / PAGE_SIZE = p := by
  rw [runWrites_pages, hempty, Finset.empty_union]
  refine ⟨List.card_toFinset _, ?_⟩
  intro p
  simp [pageNumbers]

/-- Witness for C1: the addresses 0, 2047, 2048, 4096, 0 written by threads 0, 1
and 2 from the initial state leave exactly three pages. -/
theorem recordMemWrite_dedup_witness :
    (initial 1000).pages = ∅ ∧
    (runWrites (initial 1000)
        [(7, 0, 0), (7, 2047, 1), (9, 2048, 0), (9, 4096, 2), (7, 0, 1)]).pages.card = 3 :=
  ⟨rfl, (recordMemWrite_dedup (initial 1000) _ rfl).1.trans (by decide)⟩

end DirtyPages

namespace MemFootprint

/-! Section: Footprint table. -/

theorem bump_accesses (e : ADDRSTAT) (size : Nat) (l s : Bool) :
    (bump e size l s).accesses = add32 e.accesses 1 := by
  unfold bump; simp only []; split_ifs <;> rfl

theorem bump_smallest (e : ADDRSTAT) (size : Nat) (l s : Bool) :
    (bump e size l s).smallest_byte_read = min e.smallest_byte_read size := by
  unfold bump; simp only []
  split_ifs <;> simp_all <;> omega

theorem bump_largest (e : ADDRSTAT) (size : Nat) (l s : Bool) :
    (bump e size l s).largest_byte_read = max e.largest_byte_read size := by
  unfold bump; simp only []
  split_ifs <;> simp_all <;> omega

theorem bump_is_read (e : ADDRSTAT) (size : Nat) (l s : Bool) :
    (bump e size l s).is_read = (e.is_read || l) := by
  unfold bump; simp only []
  split_ifs <;> simp_all

theorem bump_is_write (e : ADDRSTAT) (size : Nat) (l s : Bool) :
    (bump e size l s).is_write = (e.is_write || s) := by
  unfold bump; simp only []
  split_ifs <;> simp_all

end MemFootprint

namespace MemFootprint

theorem CountBytes_addrs_same (st : State) (addr size : Nat) (t : Fin MAX_NUM_THREADS)
    (l s : Bool) :
    (CountBytes st addr size t l s).addrs t addr =
      some (match st.addrs t addr with
        | none => ⟨1, size, size, size, l, s⟩
        | some e => bump e size l s) := by
  unfold CountBytes
  cases h : st.addrs t addr <;> simp [h]

theorem CountBytes_addrs_other (st : State) (addr size : Nat) (t : Fin MAX_NUM_THREADS)
    (l s : Bool) (t1 : Fin MAX_NUM_THREADS) (a1 : Nat) (hne : ¬ (t = t1 ∧ addr = a1)) :
    (CountBytes st addr size t l s).addrs t1 a1 = st.addrs t1 a1 := by
  unfold CountBytes
  by_cases ht : t1 = t
  · subst ht
    have ha : a1 ≠ addr := fun h => hne ⟨rfl, h.symm⟩
    cases h : st.addrs t1 addr <;> simp [h, Function.update_noteq ha]
  · cases h : st.addrs t addr <;> simp [h, Function.update_noteq ht]

theorem step_eq_CountBytes (st : State) (c : Access) :
    step st c = CountBytes st c.addr c.size c.threadid c.isRead (!c.isRead) := by
  unfold step RecordMemRead RecordMemWrite
  cases c.isRead <;> simp

theorem run_snoc (st : State) (calls : List Access) (c : Access) :
    run st (calls ++ [c]) = step (run st calls) c := by
  simp [run, List.foldl_append]

theorem historyOf_snoc (t : Fin MAX_NUM_THREADS) (a : Nat) (calls : List Access) (c : Access) :
    historyOf t a (calls ++ [c]) =
      historyOf t a calls ++ (if c.threadid = t ∧ c.addr = a then [c] else []) := by
  unfold historyOf
  rw [List.filter_append]
  by_cases h : c.threadid = t ∧ c.addr = a <;> simp [List.filter, h]

theorem foldOfHistory_seed (c : Access) :
    FoldOfHistory [c] ⟨1, c.size, c.size, c.size, c.isRead, !c.isRead⟩ := by
  unfold FoldOfHistory
  refine ⟨by simp [U32], ?_, ?_, ?_, ?_, ?_, ?_⟩ <;> simp

theorem foldOfHistory_bump (hist : List Access) (e : ADDRSTAT) (c : Access)
    (h : FoldOfHistory hist e) :
    FoldOfHistory (hist ++ [c]) (bump e c.size c.isRead (!c.isRead)) := by
  obtain ⟨hacc, ⟨cmin, hcmin, hmin⟩, hle, ⟨cmax, hcmax, hmax⟩, hge, hrd, hwr⟩ := h
  refine ⟨?_, ?_, ?_, ?_, ?_, ?_, ?_⟩
  · rw [bump_accesses, hacc, List.length_append]
    simp [add32, Nat.add_mod]
  · rw [bump_smallest]
    by_cases hc : e.smallest_byte_read ≤ c.size
    · exact ⟨cmin, by simp [hcmin], by rw [min_eq_left hc]; exact hmin⟩
    · exact ⟨c, by simp, by rw [min_eq_right (by omega)]⟩
  · intro x hx
    rw [bump_smallest]
    rcases List.mem_append.mp hx with hx | hx
    · exact le_trans (min_le_left _ _) (hle x hx)
    · simp at hx; subst hx; exact min_le_right _ _
  · rw [bump_largest]
    by_cases hc : c.size ≤ e.largest_byte_read
    · exact ⟨cmax, by simp [hcmax], by rw [max_eq_left hc]; exact hmax⟩
    · exact ⟨c, by simp, by rw [max_eq_right (by omega)]⟩
  · intro x hx
    rw [bump_largest]
    rcases List.mem_append.mp hx with hx | hx
    · exact le_trans (hge x hx) (le_max_left _ _)
    · simp at hx; subst hx; exact le_max_right _ _
  · rw [bump_is_read]
    simp only [Bool.or_eq_true, hrd, List.mem_append, List.mem_singleton]
    constructor
    · rintro (⟨x, hx, hxr⟩ | hc)
      · exact ⟨x, Or.inl hx, hxr⟩
      · exact ⟨c, Or.inr rfl, hc⟩
    · rintro ⟨x, hx | hx, hxr⟩
      · exact Or.inl ⟨x, hx, hxr⟩
      · subst hx; exact Or.inr hxr
  · rw [bump_is_write]
    simp only [Bool.or_eq_true, hwr, List.mem_append, List.mem_singleton]
    constructor
    · rintro (⟨x, hx, hxr⟩ | hc)
      · exact ⟨x, Or.inl hx, hxr⟩
      · exact ⟨c, Or.inr rfl, by simpa using hc⟩
    · rintro ⟨x, hx | hx, hxr⟩
      · exact Or.inl ⟨x, hx, hxr⟩
      · subst hx; exact Or.inr (by simpa using hxr)

/-- The table entry of slot `t` at address `a` after a run from the initial
state: absent when the slot never touched the address, else the fold of the
calls of `t` on `a`. -/
theorem run_entry (calls : List Access) (t : Fin MAX_NUM_THREADS) (a : Nat) :
    (historyOf t a calls = [] → (run initial calls).addrs t a = none) ∧
    (historyOf t a calls ≠ [] →
      ∃ e, (run initial calls).addrs t a = some e ∧ FoldOfHistory (historyOf t a calls) e) := by
  induction calls using List.reverseRecOn with
  | nil => exact ⟨fun _ => rfl, fun h => absurd rfl h⟩
  | append_singleton calls c ih =>
    rw [run_snoc, historyOf_snoc, step_eq_CountBytes]
    by_cases hc : c.threadid = t ∧ c.addr = a
    · obtain ⟨rfl, rfl⟩ := hc
      simp only [and_self, if_true]
      refine ⟨fun h => absurd h (by simp), fun _ => ?_⟩
      rw [CountBytes_addrs_same]
      by_cases hh : historyOf c.threadid c.addr calls = []
      · rw [ih.1 hh, hh]
        exact ⟨_, rfl, foldOfHistory_seed c⟩
      · obtain ⟨e, he, hfold⟩ := ih.2 hh
        rw [he]
        exact ⟨_, rfl, foldOfHistory_bump _ e c hfold⟩
    · rw [if_neg hc, List.append_nil, CountBytes_addrs_other _ _ _ _ _ _ _ _ hc]
      exact ih

end MemFootprint

namespace MemFootprint

/-- C2. Per-address footprint statistics equal a fold over the access history:
after any run from the empty table, the entry of slot `t` at address `a`
(when `t` accessed `a` at least once, whatever other calls are interleaved)
has `accesses` = number of those calls modulo `2^32`, `smallest_byte_read` /
`largest_byte_read` = least / greatest size among them, and `is_read` /
`is_write` set iff one of them was a read / a write.  A call on an address not
yet in the table seeds `{1, size, size, size, flags of the call}`.  Two reads of
address 100 with size 4 followed by a write with size 8 give
`{3, _, 4, 8, true, true}`. -/
theorem footprint_equals_fold (calls : List Access) (t : Fin MAX_NUM_THREADS) (a : Nat)
    (hne : historyOf t a calls ≠ []) :
    (∃ e, (run initial calls).addrs t a = some e ∧ FoldOfHistory (historyOf t a calls) e) ∧
    (∀ (st : State) (c : Access), st.addrs c.threadid c.addr = none →
      (step st c).addrs c.threadid c.addr =
        some ⟨1, c.size, c.size, c.size, c.isRead, !c.isRead⟩) ∧
    (run initial [readOf 100 4 0, readOf 100 4 0, writeOf 100 8 0]).addrs 0 100 =
      some ⟨3, 16, 4, 8, true, true⟩ := by
  refine ⟨(run_entry calls t a).2 hne, ?_, by decide⟩
  intro st c hnone
  rw [step_eq_CountBytes, CountBytes_addrs_same, hnone]

/-- Witness for C2: the history of slot 0 on address 100 in a run where slot 1
and address 200 are interleaved. -/
theorem footprint_equals_fold_witness :
    historyOf 0 100 [readOf 100 4 0, readOf 200 2 0, writeOf 100 1 1, writeOf 100 8 0] ≠ [] ∧
    ∃ e, (run initial [readOf 100 4 0, readOf 200 2 0, writeOf 100 1 1, writeOf 100 8 0]).addrs
        0 100 = some e ∧
      FoldOfHistory
        (historyOf 0 100 [readOf 100 4 0, readOf 200 2 0, writeOf 100 1 1, writeOf 100 8 0]) e :=
  ⟨by decide,
   (footprint_equals_fold [readOf 100 4 0, readOf 200 2 0, writeOf 100 1 1, writeOf 100 8 0]
      0 100 (by decide)).1⟩

end MemFootprint

namespace DirtyPages

/-! Section: Epoch gate. -/

/-- The two branches of `docount`: both guards pass, or one of them fails. -/
theorem docount_eq (s : State) (t : Fin MAX_NUM_THREADS) (c : Nat) :
    docount s t c =
      if add64 (sub64 (sumCounters s.icount) s.lastsum) c > s.insPerSec ∧
          sub64 (sumCounters s.icount) s.lastsum > s.insPerSec then
        { s with
          out := s.out ++ [(add64 (sub64 (sumCounters s.icount) s.lastsum) c, s.pages.card)],
          lastsum := sumCounters s.icount,
          pages := ∅,
          icount := Function.update s.icount t (add64 (s.icount t) c) }
      else { s with icount := Function.update s.icount t (add64 (s.icount t) c) } := by
  unfold docount
  by_cases h1 : add64 (sub64 (sumCounters s.icount) s.lastsum) c > s.insPerSec
  · by_cases h2 : sub64 (sumCounters s.icount) s.lastsum > s.insPerSec
    · simp [h1, h2]
    · simp [h1, h2]
  · simp [h1]

theorem docount_icount (s : State) (t : Fin MAX_NUM_THREADS) (c : Nat) :
    (docount s t c).icount = Function.update s.icount t (add64 (s.icount t) c) := by
  rw [docount_eq]; split_ifs <;> rfl

theorem docount_insPerSec (s : State) (t : Fin MAX_NUM_THREADS) (c : Nat) :
    (docount s t c).insPerSec = s.insPerSec := by
  rw [docount_eq]; split_ifs <;> rfl

theorem emitted_eq (s : State) (t : Fin MAX_NUM_THREADS) (c : Nat) :
    emitted s t c =
      if add64 (sub64 (sumCounters s.icount) s.lastsum) c > s.insPerSec ∧
          sub64 (sumCounters s.icount) s.lastsum > s.insPerSec then
        [(add64 (sub64 (sumCounters s.icount) s.lastsum) c, s.pages.card)]
      else [] := by
  unfold emitted
  rw [docount_eq]
  split_ifs <;> simp

theorem fires_iff_guards (s : State) (t : Fin MAX_NUM_THREADS) (c : Nat) :
    fires s t c ↔
      (add64 (sub64 (sumCounters s.icount) s.lastsum) c > s.insPerSec ∧
        sub64 (sumCounters s.icount) s.lastsum > s.insPerSec) := by
  unfold fires
  rw [emitted_eq]
  split_ifs with h <;> simp [h]

theorem docount_fired (s : State) (t : Fin MAX_NUM_THREADS) (c : Nat) (h : fires s t c) :
    (docount s t c).pages = ∅ ∧ (docount s t c).lastsum = sumCounters s.icount ∧
    (docount s t c).out =
      s.out ++ [(add64 (sub64 (sumCounters s.icount) s.lastsum) c, s.pages.card)] := by
  rw [docount_eq, if_pos ((fires_iff_guards s t c).mp h)]
  exact ⟨rfl, rfl, rfl⟩

theorem docount_not_fired (s : State) (t : Fin MAX_NUM_THREADS) (c : Nat) (h : ¬ fires s t c) :
    (docount s t c).pages = s.pages ∧ (docount s t c).lastsum = s.lastsum ∧
    (docount s t c).out = s.out := by
  rw [docount_eq, if_neg (fun hg => h ((fires_iff_guards s t c).mpr hg))]
  exact ⟨rfl, rfl, rfl⟩

theorem docount_keeps_empty (s : State) (t : Fin MAX_NUM_THREADS) (c : Nat)
    (hempty : s.pages = ∅) : (docount s t c).pages = ∅ := by
  by_cases h : fires s t c
  · exact (docount_fired s t c h).1
  · rw [(docount_not_fired s t c h).1, hempty]

theorem runCounts_keeps_empty (cs : List (Fin MAX_NUM_THREADS × Nat)) :
    ∀ s : State, s.pages = ∅ → (runCounts s cs).pages = ∅ := by
  induction cs with
  | nil => intro s h; exact h
  | cons x rest ih =>
    intro s h
    exact ih (docount s x.1 x.2) (docount_keeps_empty s x.1 x.2 h)

end DirtyPages

namespace DirtyPages

set_option maxRecDepth 8192 in
/-- Counterexample to C3 as stated: with threshold 1000, after the writes to
0, 2047, 2048, 4096 the call `docount(0, 1000)` writes no record and the page
set still holds the pages 0, 1 and 2. -/
theorem scenario_no_snapshot_counterexample :
    (run (initial 1000) (scenarioWrites ++ [Call.count 0 1000])).out = [] ∧
    (run (initial 1000) (scenarioWrites ++ [Call.count 0 1000])).pages = {0, 1, 2} ∧
    (run (initial 1000) (scenarioWrites ++ [Call.count 0 1000])).pages ≠ ∅ := by
  decide

set_option maxRecDepth 8192 in
/-- C3 (amended). Epoch scenario with threshold 1000 and page size 2048: after
thread 0 writes to 0, 2047, 2048, 4096 the page set is `{0, 1, 2}`;
`docount(0, 1000)` does not fire and leaves the set and the output untouched
(the counter sum it sees is 0); nor does the next `docount(0, 1)` (it sees
1000, not above the threshold); the following `docount(0, 1)` sees 1001, fires,
writes the record `(1002, 3)` with page count 3 and empties the set. -/
theorem scenario_snapshot_after_threshold :
    (run (initial 1000) scenarioWrites).pages = {0, 1, 2} ∧
    (run (initial 1000) scenarioWrites).pages.card = 3 ∧
    ¬ fires (run (initial 1000) scenarioWrites) 0 1000 ∧
    (run (initial 1000) (scenarioWrites ++ [Call.count 0 1000])).pages = {0, 1, 2} ∧
    ¬ fires (run (initial 1000) (scenarioWrites ++ [Call.count 0 1000])) 0 1 ∧
    fires (run (initial 1000) (scenarioWrites ++ [Call.count 0 1000, Call.count 0 1])) 0 1 ∧
    (run (initial 1000)
      (scenarioWrites ++ [Call.count 0 1000, Call.count 0 1, Call.count 0 1])).out = [(1002, 3)] ∧
    (run (initial 1000)
      (scenarioWrites ++ [Call.count 0 1000, Call.count 0 1, Call.count 0 1])).pages = ∅ := by
  decide

set_option maxRecDepth 8192 in
/-- Counterexample to C4 as stated: in the initial state with threshold 1000,
`(sum - lastsum) + c = 1001 > 1000` for `c = 1001`, yet `docount(0, 1001)`
does not fire, because the locked re-check compares `sum - lastsum = 0`. -/
theorem recheck_differs_counterexample :
    add64 (sub64 (sumCounters (initial 1000).icount) (initial 1000).lastsum) 1001
        > (initial 1000).insPerSec ∧
    ¬ fires (initial 1000) 0 1001 ∧
    (docount (initial 1000) 0 1001).out = [] := by
  decide

/-- C4 (amended). Trigger condition of the epoch gate, for every state, slot and
block size: `docount(t, c)` fires iff the unlocked check
`(sum - lastsum) + c > insPerSec` and the locked re-check
`(sum - lastsum) > insPerSec` both pass (64-bit unsigned arithmetic, `sum` the
counter sum before `c` is recorded); the re-check leaves `c` out, so when
`(sum - lastsum) + c` does not wrap around `2^64` the call fires iff
`(sum - lastsum) > insPerSec`.  A call that fires appends one record, sets
`lastsum` to `sum` and clears `pages`; a call that does not fire leaves the
output, `lastsum` and `pages` as they were. -/
theorem docount_fires_iff_recheck (s : State) (t : Fin MAX_NUM_THREADS) (c : Nat) :
    (fires s t c ↔
      (add64 (sub64 (sumCounters s.icount) s.lastsum) c > s.insPerSec ∧
        sub64 (sumCounters s.icount) s.lastsum > s.insPerSec)) ∧
    (sub64 (sumCounters s.icount) s.lastsum + c < U64 →
      (fires s t c ↔ sub64 (sumCounters s.icount) s.lastsum > s.insPerSec)) ∧
    (fires s t c →
      (docount s t c).out =
          s.out ++ [(add64 (sub64 (sumCounters s.icount) s.lastsum) c, s.pages.card)] ∧
        (docount s t c).lastsum = sumCounters s.icount ∧
        (docount s t c).pages = ∅) ∧
    (¬ fires s t c →
      (docount s t c).out = s.out ∧
        (docount s t c).lastsum = s.lastsum ∧
        (docount s t c).pages = s.pages) := by
  refine ⟨fires_iff_guards s t c, ?_, ?_, ?_⟩
  · intro hnowrap
    rw [fires_iff_guards]
    constructor
    · exact fun h => h.2
    · intro h
      refine ⟨?_, h⟩
      rw [add64, Nat.mod_eq_of_lt hnowrap]
      omega
  · intro h
    obtain ⟨hp, hl, ho⟩ := docount_fired s t c h
    exact ⟨ho, hl, hp⟩
  · intro h
    obtain ⟨hp, hl, ho⟩ := docount_not_fired s t c h
    exact ⟨ho, hl, hp⟩

set_option maxRecDepth 8192 in
/-- Witness for C4 (amended): with counters summing to 1500, `lastsum = 0` and
threshold 1000, the call `docount(0, 5)` fires (no wrap, re-check `1500 > 1000`)
and sets `lastsum = 1500`; the call `docount(0, 2^64 - 1500)` does not fire
although the re-check would pass, because `(sum - lastsum) + c` wraps to 0 and
the unlocked check fails, and it leaves `lastsum` at 0. -/
theorem docount_fires_iff_recheck_witness :
    sub64 (sumCounters (runCounts (initial 1000) [(0, 1500)]).icount)
        (runCounts (initial 1000) [(0, 1500)]).lastsum + 5 < U64 ∧
    fires (runCounts (initial 1000) [(0, 1500)]) 0 5 ∧
    (docount (runCounts (initial 1000) [(0, 1500)]) 0 5).lastsum = 1500 ∧
    sub64 (sumCounters (runCounts (initial 1000) [(0, 1500)]).icount)
        (runCounts (initial 1000) [(0, 1500)]).lastsum > 1000 ∧
    ¬ fires (runCounts (initial 1000) [(0, 1500)]) 0 18446744073709550116 ∧
    (docount (runCounts (initial 1000) [(0, 1500)]) 0 18446744073709550116).lastsum = 0 :=
  have hfire : fires (runCounts (initial 1000) [(0, 1500)]) 0 5 :=
    ((docount_fires_iff_recheck (runCounts (initial 1000) [(0, 1500)]) 0 5).2.1
      (by decide)).mpr (by decide)
  have hquiet : ¬ fires (runCounts (initial 1000) [(0, 1500)]) 0 18446744073709550116 :=
    fun h =>
      absurd ((docount_fires_iff_recheck (runCounts (initial 1000) [(0, 1500)]) 0
        18446744073709550116).1.mp h).1 (by decide)
  ⟨by decide, hfire,
   ((docount_fires_iff_recheck (runCounts (initial 1000) [(0, 1500)]) 0 5).2.2.1
      hfire).2.1.trans (by decide),
   by decide, hquiet,
   ((docount_fires_iff_recheck (runCounts (initial 1000) [(0, 1500)]) 0
      18446744073709550116).2.2.2 hquiet).2.1.trans (by decide)⟩

set_option maxRecDepth 8192 in
/-- Counterexample to C5 as stated: after `docount(0, 1500)`, `docount(0, 5)`
(first epoch) and `docount(0, 2000)` the counters sum to 3505; the call
`docount(0, 1)` then writes the record `(2006, 0)`: its first field is the
count since the last baseline 1500 plus the block, not the cumulative 3505. -/
theorem snapshot_first_field_counterexample :
    sumCounters (runCounts (initial 1000) [(0, 1500), (0, 5), (0, 2000)]).icount = 3505 ∧
    (runCounts (initial 1000) [(0, 1500), (0, 5), (0, 2000)]).lastsum = 1500 ∧
    emitted (runCounts (initial 1000) [(0, 1500), (0, 5), (0, 2000)]) 0 1 = [(2006, 0)] := by
  decide

/-- C5 (amended). Content of the snapshot record: whenever `docount(t, c)` fires
it writes exactly one record; its first field is `(sum - lastsum) + c` in 64-bit
arithmetic, the instructions counted since the last baseline plus the current
block, and its second field is the cardinality of the dirty-page set before it
is cleared. -/
theorem snapshot_record_content (s : State) (t : Fin MAX_NUM_THREADS) (c : Nat)
    (hfires : fires s t c) :
    emitted s t c = [(add64 (sub64 (sumCounters s.icount) s.lastsum) c, s.pages.card)] ∧
    (docount s t c).out =
      s.out ++ [(add64 (sub64 (sumCounters s.icount) s.lastsum) c, s.pages.card)] := by
  refine ⟨?_, (docount_fired s t c hfires).2.2⟩
  rw [emitted_eq, if_pos ((fires_iff_guards s t c).mp hfires)]

set_option maxRecDepth 8192 in
/-- Witness for C5 (amended): the firing call of the epoch scenario writes
`(1002, 3)`. -/
theorem snapshot_record_content_witness :
    fires (run (initial 1000) (scenarioWrites ++ [Call.count 0 1000, Call.count 0 1])) 0 1 ∧
    emitted (run (initial 1000) (scenarioWrites ++ [Call.count 0 1000, Call.count 0 1])) 0 1 =
      [(1002, 3)] :=
  ⟨by decide,
   (snapshot_record_content
      (run (initial 1000) (scenarioWrites ++ [Call.count 0 1000, Call.count 0 1])) 0 1
      (by decide)).1.trans (by decide)⟩

/-- C6. Epoch clearing: right after a `docount` call that fires, the dirty-page
set is empty and `lastsum` is the counter sum computed by that call; the set
stays empty over any following sequence of `docount` calls, so only a
`RecordMemWrite` can make it non-empty again. -/
theorem epoch_clearing (s : State) (t : Fin MAX_NUM_THREADS) (c : Nat) (hfires : fires s t c) :
    (docount s t c).pages = ∅ ∧
    (docount s t c).lastsum = sumCounters s.icount ∧
    (∀ cs : List (Fin MAX_NUM_THREADS × Nat), (runCounts (docount s t c) cs).pages = ∅) ∧
    (∀ (s1 : State) (t1 : Fin MAX_NUM_THREADS) (c1 : Nat), (docount s1 t1 c1).pages ⊆ s1.pages) := by
  obtain ⟨hp, hl, _⟩ := docount_fired s t c hfires
  refine ⟨hp, hl, fun cs => runCounts_keeps_empty cs _ hp, ?_⟩
  intro s1 t1 c1
  by_cases h : fires s1 t1 c1
  · rw [(docount_fired s1 t1 c1 h).1]; exact Finset.empty_subset _
  · rw [(docount_not_fired s1 t1 c1 h).1]

set_option maxRecDepth 8192 in
/-- Witness for C6: the firing call of the epoch scenario, followed by three
more `docount` calls. -/
theorem epoch_clearing_witness :
    fires (run (initial 1000) (scenarioWrites ++ [Call.count 0 1000, Call.count 0 1])) 0 1 ∧
    (docount (run (initial 1000) (scenarioWrites ++ [Call.count 0 1000, Call.count 0 1]))
      0 1).pages = ∅ ∧
    (docount (run (initial 1000) (scenarioWrites ++ [Call.count 0 1000, Call.count 0 1]))
      0 1).lastsum = 1001 ∧
    (runCounts
      (docount (run (initial 1000) (scenarioWrites ++ [Call.count 0 1000, Call.count 0 1])) 0 1)
      [(1, 7), (0, 2000), (2, 1)]).pages = ∅ :=
  have h := epoch_clearing
    (run (initial 1000) (scenarioWrites ++ [Call.count 0 1000, Call.count 0 1])) 0 1 (by decide)
  ⟨by decide, h.1, h.2.1.trans (by decide), h.2.2.1 _⟩

end DirtyPages

namespace DirtyPages

/-! Section: Counters and baseline. -/

theorem foldl_add64 (ic : Fin MAX_NUM_THREADS → Nat) (l : List (Fin MAX_NUM_THREADS)) :
    ∀ acc : Nat, acc < U64 →
      l.foldl (fun sum t => add64 sum (ic t)) acc = (acc + (l.map ic).sum) % U64 := by
  induction l with
  | nil => intro acc h; simp [Nat.mod_eq_of_lt h]
  | cons x rest ih =>
    intro acc _
    have hlt : add64 acc (ic x) < U64 := Nat.mod_lt _ (by norm_num [U64])
    rw [List.foldl_cons, ih _ hlt]
    simp only [add64, List.map_cons, List.sum_cons]
    rw [Nat.add_mod, Nat.mod_mod, ← Nat.add_mod, Nat.add_assoc]

/-- The summing loop computes the sum of the counters modulo `2^64`. -/
theorem sumCounters_eq (ic : Fin MAX_NUM_THREADS → Nat) :
    sumCounters ic = (∑ t, ic t) % U64 := by
  unfold sumCounters
  rw [foldl_add64 ic _ 0 (by norm_num [U64]), Fin.sum_univ_def, Nat.zero_add]

theorem sum_update_add (ic : Fin MAX_NUM_THREADS → Nat) (t : Fin MAX_NUM_THREADS) (c : Nat) :
    (∑ u, Function.update ic t (ic t + c) u) = (∑ u, ic u) + c := by
  rw [Finset.sum_update_of_mem (Finset.mem_univ t),
    ← Finset.add_sum_erase Finset.univ ic (Finset.mem_univ t), Finset.sdiff_singleton_eq_erase]
  omega

/-- One `docount` call from a state whose counters do not overflow and whose
baseline is at most their sum. -/
theorem docount_step (s : State) (t : Fin MAX_NUM_THREADS) (c : Nat)
    (hsum : (∑ u, s.icount u) + c < U64) (hbase : s.lastsum ≤ ∑ u, s.icount u) :
    (docount s t c).icount = Function.update s.icount t (s.icount t + c) ∧
    (∑ u, (docount s t c).icount u) = (∑ u, s.icount u) + c ∧
    s.lastsum ≤ (docount s t c).lastsum ∧
    (docount s t c).lastsum ≤ ∑ u, s.icount u := by
  have hle : s.icount t ≤ ∑ u, s.icount u :=
    Finset.single_le_sum (fun _ _ => Nat.zero_le _) (Finset.mem_univ t)
  have hic : (docount s t c).icount = Function.update s.icount t (s.icount t + c) := by
    rw [docount_icount, add64, Nat.mod_eq_of_lt (by omega)]
  have hloop : sumCounters s.icount = ∑ u, s.icount u := by
    rw [sumCounters_eq, Nat.mod_eq_of_lt (by omega)]
  refine ⟨hic, by rw [hic, sum_update_add], ?_, ?_⟩
  · by_cases h : fires s t c
    · rw [(docount_fired s t c h).2.1, hloop]; exact hbase
    · rw [(docount_not_fired s t c h).2.1]
  · by_cases h : fires s t c
    · rw [(docount_fired s t c h).2.1, hloop]
    · rw [(docount_not_fired s t c h).2.1]; exact hbase

theorem runCounts_snoc (s : State) (cs : List (Fin MAX_NUM_THREADS × Nat))
    (x : Fin MAX_NUM_THREADS × Nat) :
    runCounts s (cs ++ [x]) = docount (runCounts s cs) x.1 x.2 := by
  simp [runCounts, List.foldl_append]

/-- Invariant of a run of `docount` calls from the initial state, as long as
the instructions counted so far fit in 64 bits: the counters sum to the total
of the block sizes and the baseline is at most that sum. -/
theorem runCounts_invariant (threshold : Nat) (cs : List (Fin MAX_NUM_THREADS × Nat)) :
    (cs.map Prod.snd).sum < U64 →
      (∑ u, (runCounts (initial threshold) cs).icount u) = (cs.map Prod.snd).sum ∧
      (runCounts (initial threshold) cs).lastsum ≤
        ∑ u, (runCounts (initial threshold) cs).icount u := by
  induction cs using List.reverseRecOn with
  | nil => intro _; simp [runCounts, initial]
  | append_singleton cs x ih =>
    intro h
    rw [List.map_append, List.sum_append] at h ⊢
    simp only [List.map_cons, List.map_nil, List.sum_cons, List.sum_nil, Nat.add_zero] at h ⊢
    obtain ⟨hs, hb⟩ := ih (by omega)
    obtain ⟨_, h2, _, h4⟩ := docount_step (runCounts (initial threshold) cs) x.1 x.2
      (by omega) hb
    rw [runCounts_snoc]
    exact ⟨by rw [h2, hs], by omega⟩

/-- C10. Epoch baseline invariant: in a run of `docount` calls from the initial
state whose counted instructions fit in 64 bits, every call `docount(t, c)`
leaves `lastsum` at least what it was and at most the current sum of the
counters, adds exactly `c` to `icount[t]` and leaves every other counter as it
was (so no counter ever decreases). -/
theorem epoch_baseline_invariant (threshold : Nat) (pre : List (Fin MAX_NUM_THREADS × Nat))
    (t : Fin MAX_NUM_THREADS) (c : Nat) (hfit : (pre.map Prod.snd).sum + c < U64) :
    (runCounts (initial threshold) pre).lastsum ≤
      (docount (runCounts (initial threshold) pre) t c).lastsum ∧
    (docount (runCounts (initial threshold) pre) t c).lastsum ≤
      sumCounters (docount (runCounts (initial threshold) pre) t c).icount ∧
    sumCounters (docount (runCounts (initial threshold) pre) t c).icount =
      ∑ u, (docount (runCounts (initial threshold) pre) t c).icount u ∧
    (docount (runCounts (initial threshold) pre) t c).icount t =
      (runCounts (initial threshold) pre).icount t + c ∧
    (∀ u, u ≠ t → (docount (runCounts (initial threshold) pre) t c).icount u =
      (runCounts (initial threshold) pre).icount u) ∧
    (∀ u, (runCounts (initial threshold) pre).icount u ≤
      (docount (runCounts (initial threshold) pre) t c).icount u) := by
  obtain ⟨hs, hb⟩ := runCounts_invariant threshold pre (by omega)
  obtain ⟨h1, h2, h3, h4⟩ := docount_step (runCounts (initial threshold) pre) t c
    (by omega) hb
  have hloop : sumCounters (docount (runCounts (initial threshold) pre) t c).icount =
      ∑ u, (docount (runCounts (initial threshold) pre) t c).icount u := by
    rw [sumCounters_eq, Nat.mod_eq_of_lt (by omega)]
  refine ⟨h3, by omega, hloop, ?_, ?_, ?_⟩
  · rw [h1, Function.update_same]
  · intro u hu
    rw [h1, Function.update_noteq hu]
  · intro u
    rw [h1]
    by_cases hu : u = t
    · subst hu; rw [Function.update_same]; omega
    · rw [Function.update_noteq hu]

set_option maxRecDepth 8192 in
/-- Witness for C10: slot 1 counts 7 instructions after the first epoch of slot 0. -/
theorem epoch_baseline_invariant_witness :
    (([((0 : Fin MAX_NUM_THREADS), 1500), (0, 5)] : List (Fin MAX_NUM_THREADS × Nat)).map
      Prod.snd).sum + 7 < U64 ∧
    (runCounts (initial 1000) [(0, 1500), (0, 5)]).lastsum ≤
      (docount (runCounts (initial 1000) [(0, 1500), (0, 5)]) 1 7).lastsum ∧
    (docount (runCounts (initial 1000) [(0, 1500), (0, 5)]) 1 7).lastsum ≤
      sumCounters (docount (runCounts (initial 1000) [(0, 1500), (0, 5)]) 1 7).icount :=
  have h := epoch_baseline_invariant 1000 [(0, 1500), (0, 5)] 1 7 (by decide)
  ⟨by decide, h.1, h.2.1⟩

end DirtyPages

namespace MemFootprint

/-! Section: Monotonicity and isolation. -/

theorem historyOf_replicate (n : Nat) (c : Access) :
    historyOf c.threadid c.addr (List.replicate n c) = List.replicate n c := by
  unfold historyOf
  rw [List.filter_eq_self]
  intro x hx
  rw [List.eq_of_mem_replicate hx]
  simp

/-- After `n > 0` reads of address `a` by slot `t` the access count of the entry
is `n` modulo `2^32`. -/
theorem run_replicate_accesses (n : Nat) (hn : 0 < n) (a size : Nat)
    (t : Fin MAX_NUM_THREADS) :
    ∃ e, (run initial (List.replicate n (readOf a size t))).addrs t a = some e ∧
      e.accesses = n % U32 := by
  have hrep := historyOf_replicate n (readOf a size t)
  have hrep1 : historyOf t a (List.replicate n (readOf a size t)) =
      List.replicate n (readOf a size t) := hrep
  have hne : historyOf t a (List.replicate n (readOf a size t)) ≠ [] := by
    rw [hrep1]
    intro h
    have hlen := congrArg List.length h
    simp at hlen
    omega
  obtain ⟨e, he, hfold⟩ := (run_entry (List.replicate n (readOf a size t)) t a).2 hne
  refine ⟨e, he, ?_⟩
  rw [hfold.1, hrep1, List.length_replicate]

/-- Counterexample to C7 as stated: after `2^32 - 1` reads of address 100 by
slot 0 the entry has `accesses = 4294967295`; one more read of the same address
leaves an entry whose `accesses` is 0, which is smaller. -/
theorem accesses_wrap_counterexample :
    ∃ e e1 : ADDRSTAT,
      (run initial (List.replicate 4294967295 (readOf 100 4 0))).addrs 0 100 = some e ∧
      (CountBytes (run initial (List.replicate 4294967295 (readOf 100 4 0)))
        100 4 0 true false).addrs 0 100 = some e1 ∧
      e.accesses = 4294967295 ∧ e1.accesses = 0 ∧ ¬ (e1.accesses ≥ e.accesses) := by
  obtain ⟨e, he0, hacc⟩ := run_replicate_accesses 4294967295 (by norm_num) 100 4 0
  have hacc1 : e.accesses = 4294967295 := by rw [hacc]; norm_num [U32]
  refine ⟨e, bump e 4 true false, he0, ?_, hacc1, ?_, ?_⟩
  · rw [CountBytes_addrs_same, he0]
  · rw [bump_accesses, hacc1]; norm_num [add32, U32]
  · rw [bump_accesses, hacc1]; norm_num [add32, U32]

/-- C7 (amended). Monotonicity of the statistics under one `CountBytes` call on
slot `t`: an address present in `addrs[t]` is still present afterwards; its
`smallest_byte_read` does not grow, its `largest_byte_read` does not shrink,
`is_read` / `is_write` stay true once true; its `accesses` is unchanged when
the call is on another address and incremented modulo `2^32` when the call is
on it, hence not smaller than before as long as the old count is below
`2^32 - 1`. -/
theorem countBytes_monotone (st : State) (t : Fin MAX_NUM_THREADS) (addr size : Nat)
    (l s : Bool) (a : Nat) (e : ADDRSTAT) (hpresent : st.addrs t a = some e) :
    ∃ e1, (CountBytes st addr size t l s).addrs t a = some e1 ∧
      e1.accesses = (if addr = a then add32 e.accesses 1 else e.accesses) ∧
      (e.accesses + 1 < U32 → e.accesses ≤ e1.accesses) ∧
      e1.smallest_byte_read ≤ e.smallest_byte_read ∧
      e.largest_byte_read ≤ e1.largest_byte_read ∧
      (e.is_read = true → e1.is_read = true) ∧
      (e.is_write = true → e1.is_write = true) := by
  by_cases ha : addr = a
  · subst ha
    refine ⟨bump e size l s, ?_, ?_, ?_, ?_, ?_, ?_, ?_⟩
    · rw [CountBytes_addrs_same, hpresent]
    · rw [bump_accesses, if_pos rfl]
    · intro hlt
      rw [bump_accesses, add32, Nat.mod_eq_of_lt hlt]
      omega
    · rw [bump_smallest]; exact min_le_left _ _
    · rw [bump_largest]; exact le_max_left _ _
    · intro h; rw [bump_is_read, h]; rfl
    · intro h; rw [bump_is_write, h]; rfl
  · refine ⟨e, ?_, ?_, fun _ => le_refl _, le_refl _, le_refl _, id, id⟩
    · rw [CountBytes_addrs_other _ _ _ _ _ _ _ _ (fun h => ha h.2), hpresent]
    · rw [if_neg ha]

/-- Witness for C7 (amended): a second read of address 100 by slot 0. -/
theorem countBytes_monotone_witness :
    (run initial [readOf 100 4 0]).addrs 0 100 = some ⟨1, 4, 4, 4, true, false⟩ ∧
    ∃ e1, (CountBytes (run initial [readOf 100 4 0]) 100 8 0 false true).addrs 0 100 = some e1 ∧
      e1.accesses = (if 100 = 100 then add32 1 1 else 1) ∧
      (1 + 1 < U32 → 1 ≤ e1.accesses) ∧
      e1.smallest_byte_read ≤ 4 ∧ 4 ≤ e1.largest_byte_read ∧
      ((true : Bool) = true → e1.is_read = true) ∧ ((false : Bool) = true → e1.is_write = true) :=
  ⟨by decide,
   countBytes_monotone (run initial [readOf 100 4 0]) 0 100 8 false true 100
     ⟨1, 4, 4, 4, true, false⟩ (by decide)⟩

theorem CountBytes_frame (st : State) (addr size : Nat) (B : Fin MAX_NUM_THREADS) (l s : Bool)
    (A : Fin MAX_NUM_THREADS) (hAB : A ≠ B) :
    (CountBytes st addr size B l s).addrs A = st.addrs A ∧
    (CountBytes st addr size B l s).thread_all_bytes_read A = st.thread_all_bytes_read A := by
  unfold CountBytes
  cases h : st.addrs B addr <;> simp [h, Function.update_noteq hAB]

/-- C8. Thread-bound isolation: for distinct slots `A` and `B`, any sequence of
`CountBytes` calls made with slot `B` leaves the table `addrs[A]` and the byte
total `thread_all_bytes_read[A]` exactly as they were. -/
theorem countBytes_isolation (A B : Fin MAX_NUM_THREADS) (hAB : A ≠ B) (st : State)
    (calls : List CountArgs) :
    (runCountBytes st B calls).addrs A = st.addrs A ∧
    (runCountBytes st B calls).thread_all_bytes_read A = st.thread_all_bytes_read A := by
  induction calls generalizing st with
  | nil => exact ⟨rfl, rfl⟩
  | cons c rest ih =>
    have hstep : runCountBytes st B (c :: rest) =
        runCountBytes (CountBytes st c.1 c.2.1 B c.2.2.1 c.2.2.2) B rest := rfl
    rw [hstep]
    obtain ⟨h1, h2⟩ := ih (CountBytes st c.1 c.2.1 B c.2.2.1 c.2.2.2)
    obtain ⟨f1, f2⟩ := CountBytes_frame st c.1 c.2.1 B c.2.2.1 c.2.2.2 A hAB
    exact ⟨h1.trans f1, h2.trans f2⟩

/-- Witness for C8: slot 3 makes three calls after slot 0 has read address 100;
the table and the byte total of slot 0 do not move. -/
theorem countBytes_isolation_witness :
    (0 : Fin MAX_NUM_THREADS) ≠ 3 ∧
    (runCountBytes (run initial [readOf 100 4 0]) 3
        [(100, 4, true, false), (100, 8, false, true), (7, 1, true, false)]).addrs 0 =
      (run initial [readOf 100 4 0]).addrs 0 ∧
    (runCountBytes (run initial [readOf 100 4 0]) 3
        [(100, 4, true, false), (100, 8, false, true), (7, 1, true, false)]).thread_all_bytes_read 0 =
      (run initial [readOf 100 4 0]).thread_all_bytes_read 0 :=
  ⟨by decide, countBytes_isolation 0 3 (by decide) (run initial [readOf 100 4 0])
    [(100, 4, true, false), (100, 8, false, true), (7, 1, true, false)]⟩

end MemFootprint

/-! Section: Thread registry. -/

theorem wrapInt32_small (z : Int) (hlo : -2 ^ 31 ≤ z) (hhi : z < 2 ^ 31) : wrapInt32 z = z := by
  unfold wrapInt32
  rw [Int.emod_eq_of_lt (by omega) (by omega)]
  omega

theorem dirtyPages_threadStart_iff (s : DirtyPages.State) :
    DirtyPages.ThreadStart s = Except.error "Maximum number of threads exceeded\n" ↔
      (DirtyPages.MAX_NUM_THREADS : Int) < wrapInt32 (s.numThreads + 1) := by
  unfold DirtyPages.ThreadStart ASSERT
  by_cases h : wrapInt32 (s.numThreads + 1) ≤ (DirtyPages.MAX_NUM_THREADS : Int)
  · simp [h]
  · simp [h]

theorem memFootprint_threadStart_iff (s : MemFootprint.State) :
    MemFootprint.ThreadStart s = Except.error "Maximum number of threads exceeded\n" ↔
      (MemFootprint.MAX_NUM_THREADS : Int) < wrapInt32 (s.numThreads + 1) := by
  unfold MemFootprint.ThreadStart ASSERT
  by_cases h : wrapInt32 (s.numThreads + 1) ≤ (MemFootprint.MAX_NUM_THREADS : Int)
  · simp [h]
  · simp [h]

theorem pinatrace_threadStart_iff (s : Pinatrace.State) :
    Pinatrace.ThreadStart s = Except.error "Maximum number of threads exceeded\n" ↔
      (Pinatrace.MAX_NUM_THREADS : Int) < wrapInt32 (s.numThreads + 1) := by
  unfold Pinatrace.ThreadStart ASSERT
  by_cases h : wrapInt32 (s.numThreads + 1) ≤ (Pinatrace.MAX_NUM_THREADS : Int)
  · simp [h]
  · simp [h]

theorem dirtyPages_threadStart_iterate (s : DirtyPages.State) (h0 : s.numThreads = 0) :
    ∀ k : Nat, k ≤ DirtyPages.MAX_NUM_THREADS →
      iterateExcept DirtyPages.ThreadStart k s = Except.ok { s with numThreads := (k : Int) } := by
  intro k
  induction k with
  | zero => intro _; cases s; simp_all [iterateExcept]
  | succ k ih =>
    intro hk
    have hk1 : k + 1 ≤ 32 := le_trans hk (by decide)
    have hw : wrapInt32 ((k : Int) + 1) = ((k + 1 : Nat) : Int) := by
      rw [wrapInt32_small _ (by omega) (by omega)]; push_cast; rfl
    have hle : ((k + 1 : Nat) : Int) ≤ (DirtyPages.MAX_NUM_THREADS : Int) := by exact_mod_cast hk
    simp only [iterateExcept, ih (by omega), DirtyPages.ThreadStart, ASSERT, hw]
    rw [if_pos (by simpa using hle)]

theorem memFootprint_threadStart_iterate (s : MemFootprint.State) (h0 : s.numThreads = 0) :
    ∀ k : Nat, k ≤ MemFootprint.MAX_NUM_THREADS →
      iterateExcept MemFootprint.ThreadStart k s =
        Except.ok { s with numThreads := (k : Int) } := by
  intro k
  induction k with
  | zero => intro _; cases s; simp_all [iterateExcept]
  | succ k ih =>
    intro hk
    have hk1 : k + 1 ≤ 32 := le_trans hk (by decide)
    have hw : wrapInt32 ((k : Int) + 1) = ((k + 1 : Nat) : Int) := by
      rw [wrapInt32_small _ (by omega) (by omega)]; push_cast; rfl
    have hle : ((k + 1 : Nat) : Int) ≤ (MemFootprint.MAX_NUM_THREADS : Int) := by
      exact_mod_cast hk
    simp only [iterateExcept, ih (by omega), MemFootprint.ThreadStart, ASSERT, hw]
    rw [if_pos (by simpa using hle)]

theorem pinatrace_threadStart_iterate (s : Pinatrace.State) (h0 : s.numThreads = 0) :
    ∀ k : Nat, k ≤ Pinatrace.MAX_NUM_THREADS →
      iterateExcept Pinatrace.ThreadStart k s = Except.ok { s with numThreads := (k : Int) } := by
  intro k
  induction k with
  | zero => intro _; cases s; simp_all [iterateExcept]
  | succ k ih =>
    intro hk
    have hk1 : k + 1 ≤ 32 := le_trans hk (by decide)
    have hw : wrapInt32 ((k : Int) + 1) = ((k + 1 : Nat) : Int) := by
      rw [wrapInt32_small _ (by omega) (by omega)]; push_cast; rfl
    have hle : ((k + 1 : Nat) : Int) ≤ (Pinatrace.MAX_NUM_THREADS : Int) := by exact_mod_cast hk
    simp only [iterateExcept, ih (by omega), Pinatrace.ThreadStart, ASSERT, hw]
    rw [if_pos (by simpa using hle)]

/-- C9. Fatal ceiling of the thread registry: from `numThreads = 0`, `k`
successive `ThreadStart` calls all succeed and leave `numThreads = k` for every
`k ≤ MAX_NUM_THREADS`, and call number `MAX_NUM_THREADS + 1` fails with the
assertion message; in any state `ThreadStart` fails iff the thread count after
its increment exceeds `MAX_NUM_THREADS`, which is 32 in dirty_pages and 8 in
memfootprint_mt and pinatrace_mt. -/
theorem threadStart_fatal_ceiling (threshold : Nat) :
    (DirtyPages.MAX_NUM_THREADS = 32 ∧ MemFootprint.MAX_NUM_THREADS = 8 ∧
      Pinatrace.MAX_NUM_THREADS = 8) ∧
    (∀ k : Nat, k ≤ DirtyPages.MAX_NUM_THREADS →
      iterateExcept DirtyPages.ThreadStart k (DirtyPages.initial threshold) =
        Except.ok { DirtyPages.initial threshold with numThreads := (k : Int) }) ∧
    iterateExcept DirtyPages.ThreadStart (DirtyPages.MAX_NUM_THREADS + 1)
        (DirtyPages.initial threshold) =
      Except.error "Maximum number of threads exceeded\n" ∧
    (∀ s : DirtyPages.State,
      DirtyPages.ThreadStart s = Except.error "Maximum number of threads exceeded\n" ↔
        (DirtyPages.MAX_NUM_THREADS : Int) < wrapInt32 (s.numThreads + 1)) ∧
    (∀ k : Nat, k ≤ MemFootprint.MAX_NUM_THREADS →
      iterateExcept MemFootprint.ThreadStart k MemFootprint.initial =
        Except.ok { MemFootprint.initial with numThreads := (k : Int) }) ∧
    iterateExcept MemFootprint.ThreadStart (MemFootprint.MAX_NUM_THREADS + 1)
        MemFootprint.initial =
      Except.error "Maximum number of threads exceeded\n" ∧
    (∀ s : MemFootprint.State,
      MemFootprint.ThreadStart s = Except.error "Maximum number of threads exceeded\n" ↔
        (MemFootprint.MAX_NUM_THREADS : Int) < wrapInt32 (s.numThreads + 1)) ∧
    (∀ k : Nat, k ≤ Pinatrace.MAX_NUM_THREADS →
      iterateExcept Pinatrace.ThreadStart k Pinatrace.initial =
        Except.ok { Pinatrace.initial with numThreads := (k : Int) }) ∧
    iterateExcept Pinatrace.ThreadStart (Pinatrace.MAX_NUM_THREADS + 1) Pinatrace.initial =
      Except.error "Maximum number of threads exceeded\n" ∧
    (∀ s : Pinatrace.State,
      Pinatrace.ThreadStart s = Except.error "Maximum number of threads exceeded\n" ↔
        (Pinatrace.MAX_NUM_THREADS : Int) < wrapInt32 (s.numThreads + 1)) := by
  refine ⟨⟨rfl, rfl, rfl⟩,
    dirtyPages_threadStart_iterate (DirtyPages.initial threshold) rfl, ?_,
    dirtyPages_threadStart_iff,
    memFootprint_threadStart_iterate MemFootprint.initial rfl, ?_, memFootprint_threadStart_iff,
    pinatrace_threadStart_iterate Pinatrace.initial rfl, ?_, pinatrace_threadStart_iff⟩
  · rw [iterateExcept,
      dirtyPages_threadStart_iterate (DirtyPages.initial threshold) rfl _ (le_refl _)]
    rfl
  · rw [iterateExcept, memFootprint_threadStart_iterate MemFootprint.initial rfl _ (le_refl _)]
    rfl
  · rw [iterateExcept, pinatrace_threadStart_iterate Pinatrace.initial rfl _ (le_refl _)]
    rfl

/-- Witness for C9: 32 registrations of dirty_pages succeed, the 33rd fails. -/
theorem threadStart_fatal_ceiling_witness :
    iterateExcept DirtyPages.ThreadStart 32 (DirtyPages.initial 1000) =
      Except.ok { DirtyPages.initial 1000 with numThreads := 32 } ∧
    iterateExcept DirtyPages.ThreadStart 33 (DirtyPages.initial 1000) =
      Except.error "Maximum number of threads exceeded\n" :=
  ⟨(threadStart_fatal_ceiling 1000).2.1 32 (le_refl _), (threadStart_fatal_ceiling 1000).2.2.1⟩

namespace DirtyPages

/-! Section: Locked re-check with a stale sum. -/

/-- The routine `docount` is its unlocked check around the locked section run
with the locals computed in the same state, followed by the counter update. -/
theorem docount_eq_locked (s : State) (t : Fin MAX_NUM_THREADS) (c : Nat) :
    docount s t c =
      { (if add64 (sub64 (sumCounters s.icount) s.lastsum) c > s.insPerSec then
            docountLocked s (sumCounters s.icount) (sub64 (sumCounters s.icount) s.lastsum) c
          else s) with
        icount := Function.update s.icount t (add64 (s.icount t) c) } := by
  unfold docount docountLocked
  by_cases h1 : add64 (sub64 (sumCounters s.icount) s.lastsum) c > s.insPerSec
  · by_cases h2 : sub64 (sumCounters s.icount) s.lastsum > s.insPerSec
    · simp [h1, h2]
    · simp [h1, h2]
  · simp [h1]

theorem sub64_self (b : Nat) : sub64 b b = 0 := by
  unfold sub64
  have hpos : 0 < U64 := by norm_num [U64]
  have hlt : b % U64 < U64 := Nat.mod_lt _ hpos
  have hsplit : b + (U64 - b % U64) = U64 * (b / U64 + 1) := by
    have hdm := Nat.div_add_mod b U64
    rw [Nat.mul_add, Nat.mul_one]
    omega
  rw [hsplit, Nat.mul_mod_right]

/-- The locked section ends without a record exactly when the re-check value
`sum - lastsum`, taken modulo `2^64`, is at most the threshold. -/
theorem docountLocked_noop_iff (s : State) (sum ins c : Nat) :
    docountLocked s sum ins c = s ↔ sub64 sum s.lastsum ≤ s.insPerSec := by
  unfold docountLocked
  by_cases h : sub64 sum s.lastsum > s.insPerSec
  · rw [if_pos h]
    constructor
    · intro heq
      have hout := congrArg (fun st => st.out.length) heq
      simp at hout
    · intro hle; omega
  · rw [if_neg h]
    exact ⟨fun _ => by omega, fun _ => rfl⟩

set_option maxRecDepth 8192 in
/-- C11 (evaluation of the code at the failing input). A context in slot 1
enters `docount(1, 5)` in `raceStart`: it computes `sum = 1000`, `ins = 1000`
and passes the unlocked check (`1005 > 1000`).  Before it gets the lock, slot 0
fires an epoch and advances `lastsum` to `1001 ≥ 1000`, then dirties page 2.
The re-check of the late context computes `1000 - 1001 = 2^64 - 1` in unsigned
64-bit arithmetic, which is above the threshold: the locked section writes a
second record `(1005, 1)`, moves `lastsum` back to 1000 and clears the page
set.  Only when the baseline equals the stale sum does the re-check leave every
state untouched. -/
theorem stale_recheck_fires :
    sumCounters raceStart.icount = 1000 ∧
    sub64 1000 raceStart.lastsum = 1000 ∧
    add64 1000 5 > raceStart.insPerSec ∧
    raceShared.insPerSec = 1000 ∧
    raceShared.lastsum = 1001 ∧
    raceShared.out = [(1002, 0)] ∧
    raceShared.pages = {2} ∧
    sub64 1000 raceShared.lastsum = 2 ^ 64 - 1 ∧
    (docountLocked raceShared 1000 1000 5).out = [(1002, 0), (1005, 1)] ∧
    (docountLocked raceShared 1000 1000 5).lastsum = 1000 ∧
    (docountLocked raceShared 1000 1000 5).pages = ∅ ∧
    (∀ (st : State) (ins c : Nat), docountLocked st st.lastsum ins c = st) := by
  refine ⟨by decide, by decide, by decide, by decide, by decide, by decide, by decide,
    by decide, by decide, by decide, by decide, ?_⟩
  intro st ins c
  rw [docountLocked_noop_iff, sub64_self]
  exact Nat.zero_le _

end DirtyPages
